import Mathlib

/-!
Verification of the n-puzzle search-node core (`src/node.py`).

The embedding mirrors the Python class `Node`: construction (`Node.__init__`,
here `mkNode`, returning `Except` because the constructor can raise
`ValueError`), ordering (`Node.__lt__`, here `Node.lt`), and child generation
(`Node.createChildrenNodes`, here `createChildrenNodes`, the lazy generator
realised as an eagerly built list in `Except`, since it yields at most four
elements).  Python list primitives that can raise (`list.index`, indexing)
are modelled by fallible functions.
-/

/-- Modelled from the spec: the heuristic evaluator lives in `heuristic.py`,
which is not part of the analysed source; the spec gives its contract as a
pure total function `evaluate(stateNode, goalGrid, gridSize, heuristicName)`
returning a non-negative integer, where the state enters through its grid.
We therefore abstract it as an arbitrary function of
(grid, solutionGrid, gridSize, heuristicName). -/
def HeuristicFn : Type := List Nat → List Nat → Nat → String → Nat

/-- A search-tree node, mirroring the attributes set in `Node.__init__`:
`_parentNode`, `_grid`, `_gridSize`, `_heuristic`, `_searchType`, `_level`,
`_h_cost`, `_cost`.  (`_g_cost` is always equal to `_level` in the source and
is not stored separately.) -/
inductive Node : Type where
  | mk : Option Node → List Nat → Nat → String → String → Nat → Nat → Nat → Node

/-- Accessor for `_parentNode` (`getParentNode`). -/
def Node.getParentNode : Node → Option Node
  | Node.mk p _ _ _ _ _ _ _ => p

/-- Accessor for `_grid` (`getGrid`). -/
def Node.getGrid : Node → List Nat
  | Node.mk _ g _ _ _ _ _ _ => g

/-- Accessor for `_gridSize` (`getGridSize`). -/
def Node.getGridSize : Node → Nat
  | Node.mk _ _ s _ _ _ _ _ => s

/-- Accessor for `_heuristic`. -/
def Node.getHeuristic : Node → String
  | Node.mk _ _ _ h _ _ _ _ => h

/-- Accessor for `_searchType`. -/
def Node.getSearchType : Node → String
  | Node.mk _ _ _ _ t _ _ _ => t

/-- Accessor for `_level` (`getLevel`). -/
def Node.getLevel : Node → Nat
  | Node.mk _ _ _ _ _ l _ _ => l

/-- Accessor for `_h_cost`. -/
def Node.getHCost : Node → Nat
  | Node.mk _ _ _ _ _ _ h _ => h

/-- Accessor for `_cost` (`getCost`). -/
def Node.getCost : Node → Nat
  | Node.mk _ _ _ _ _ _ _ c => c

/-- The three strategy strings recognised by `Node.__init__`. -/
def ValidStrategy (s : String) : Prop :=
  s = "a_star" ∨ s = "uniform" ∨ s = "greedy"

instance (s : String) : Decidable (ValidStrategy s) := by
  unfold ValidStrategy; infer_instance

/-- The strategy table of the spec (section 4.1): total cost as a function of
strategy, level (= g-cost) and heuristic cost. -/
def costTable (strategy : String) (level hCost : Nat) : Nat :=
  if strategy = "a_star" then level + hCost * 2
  else if strategy = "uniform" then level
  else hCost

/-- The level computation of `Node.__init__`:
`0 if not parentNode else parentNode.getLevel() + 1`. -/
def levelOf : Option Node → Nat
  | none => 0
  | some p => p.getLevel + 1

/-- Constructor `Node.__init__`: computes `level` from the optional parent, obtains the
heuristic cost, then selects the cost formula by the strategy string, raising
`ValueError` for an unrecognised strategy (modelled as `Except.error`). -/
def mkNode (heval : HeuristicFn) (parentNode : Option Node) (grid solutionGrid : List Nat)
    (gridSize : Nat) (heuristic searchStrategy : String) : Except String Node :=
  let level : Nat := levelOf parentNode
  let gCost : Nat := level
  let hCost : Nat := heval grid solutionGrid gridSize heuristic
  if searchStrategy = "a_star" then
    Except.ok (Node.mk parentNode grid gridSize heuristic searchStrategy level hCost
      (gCost + hCost * 2))
  else if searchStrategy = "uniform" then
    Except.ok (Node.mk parentNode grid gridSize heuristic searchStrategy level hCost gCost)
  else if searchStrategy = "greedy" then
    Except.ok (Node.mk parentNode grid gridSize heuristic searchStrategy level hCost hCost)
  else
    Except.error ("Unsupported search type: " ++ searchStrategy)

/-- Comparison `Node.__lt__`: by `_cost` only. -/
def Node.lt (self other : Node) : Bool :=
  self.getCost < other.getCost

/-- Python `list.index(v)`: index of the first occurrence, or failure
(`ValueError`) when absent; the `none` case stands for the raised error. -/
def listIndex (l : List Nat) (v : Nat) : Option Nat :=
  match l with
  | [] => none
  | a :: t => if a = v then some 0 else (listIndex t v).map (· + 1)

/-- The simultaneous swap `l[i], l[j] = l[j], l[i]`: both cells are read from
the original list, then written. -/
def swapAt (l : List Nat) (i j : Nat) : List Nat :=
  (l.set i (l.getD j 0)).set j (l.getD i 0)

/-- The same swap with the bounds behaviour of Python: an out-of-range (non-negative)
index raises `IndexError`. -/
def pySwap (l : List Nat) (i j : Nat) : Except String (List Nat) :=
  if i < l.length ∧ j < l.length then Except.ok (swapAt l i j)
  else Except.error ("IndexError: list assignment index out of range")

/-- One `yield` of `createChildrenNodes`: copy the grid, swap the zero cell at
`i` with the cell at `j`, and construct the child node with `parent = self`,
the passed `solutionGrid` and `gridSize`, and the own heuristic and
search-type strings of the node. -/
def moveZero (heval : HeuristicFn) (self : Node) (solutionGrid : List Nat)
    (gridSize i j : Nat) : Except String Node :=
  match pySwap self.getGrid i j with
  | Except.error e => Except.error e
  | Except.ok newGrid =>
      mkNode heval (some self) newGrid solutionGrid gridSize self.getHeuristic self.getSearchType

/-- One guarded move of `createChildrenNodes`: when `guard` holds, the swapped
child is appended to the accumulated list; errors propagate. -/
def stepMove (heval : HeuristicFn) (self : Node) (solutionGrid : List Nat)
    (gridSize : Nat) (guard : Bool) (i j : Nat) (acc : Except String (List Node)) :
    Except String (List Node) :=
  match acc with
  | Except.error e => Except.error e
  | Except.ok cs =>
      if guard then
        match moveZero heval self solutionGrid gridSize i j with
        | Except.error e => Except.error e
        | Except.ok c => Except.ok (cs ++ [c])
      else Except.ok cs

/-- Expansion `Node.createChildrenNodes`: locate the zero (`self._grid.index(0)`, which
raises when absent), derive `zeroX = zeroIndex % gridSize` and
`zeroY = zeroIndex // gridSize` (raising on `gridSize = 0`), then yield the
guarded moves in source order: Right, Left, Down, Up.  The source recomputes
the cell index as `zeroY * gridSize + zeroX` inside every branch, which is
kept verbatim here. -/
def createChildrenNodes (heval : HeuristicFn) (self : Node)
    (solutionGrid : List Nat) (gridSize : Nat) : Except String (List Node) :=
  match listIndex self.getGrid 0 with
  | none => Except.error ("ValueError: 0 is not in list")
  | some zeroIndex =>
      if gridSize = 0 then
        Except.error ("ZeroDivisionError: integer division or modulo by zero")
      else
        stepMove heval self solutionGrid gridSize
          (decide (zeroIndex / gridSize > 0))
          (zeroIndex / gridSize * gridSize + zeroIndex % gridSize)
          (zeroIndex / gridSize * gridSize + zeroIndex % gridSize - gridSize)
          (stepMove heval self solutionGrid gridSize
            (decide (zeroIndex / gridSize < gridSize - 1))
            (zeroIndex / gridSize * gridSize + zeroIndex % gridSize)
            (zeroIndex / gridSize * gridSize + zeroIndex % gridSize + gridSize)
            (stepMove heval self solutionGrid gridSize
              (decide (zeroIndex % gridSize > 0))
              (zeroIndex / gridSize * gridSize + zeroIndex % gridSize)
              (zeroIndex / gridSize * gridSize + zeroIndex % gridSize - 1)
              (stepMove heval self solutionGrid gridSize
                (decide (zeroIndex % gridSize < gridSize - 1))
                (zeroIndex / gridSize * gridSize + zeroIndex % gridSize)
                (zeroIndex / gridSize * gridSize + zeroIndex % gridSize + 1)
                (Except.ok []))))

/-- The static coordinate helper `getCoordinates`: `(index % size, index // size)`. -/
def Node.getCoordinates (index size : Nat) : Nat × Nat :=
  (index % size, index / size)

/-! ### Basic list lemmas for `getD`, `set`, `swapAt`, `listIndex` -/

theorem getD_set_self (l : List Nat) (i b d : Nat) (h : i < l.length) :
    (l.set i b).getD i d = b := by
  simp [List.getD_eq_getElem?_getD, List.getElem?_set_self h]

theorem getD_set_ne (l : List Nat) (i k b d : Nat) (h : i ≠ k) :
    (l.set i b).getD k d = l.getD k d := by
  simp [List.getD_eq_getElem?_getD, List.getElem?_set_ne h]

theorem swapAt_length (l : List Nat) (i j : Nat) : (swapAt l i j).length = l.length := by
  simp [swapAt]

theorem swapAt_getD_fst (l : List Nat) (i j d : Nat) (hi : i < l.length) (hne : j ≠ i) :
    (swapAt l i j).getD i d = l.getD j 0 := by
  unfold swapAt
  rw [getD_set_ne _ _ _ _ _ hne, getD_set_self _ _ _ _ hi]

theorem swapAt_getD_snd (l : List Nat) (i j d : Nat) (hj : j < l.length) :
    (swapAt l i j).getD j d = l.getD i 0 := by
  unfold swapAt
  exact getD_set_self _ _ _ _ (by simpa using hj)

theorem swapAt_getD_other (l : List Nat) (i j k d : Nat) (h1 : i ≠ k) (h2 : j ≠ k) :
    (swapAt l i j).getD k d = l.getD k d := by
  unfold swapAt
  rw [getD_set_ne _ _ _ _ _ h2, getD_set_ne _ _ _ _ _ h1]

theorem listIndex_lt_length (l : List Nat) (v z : Nat) (h : listIndex l v = some z) :
    z < l.length := by
  induction l generalizing z with
  | nil => simp [listIndex] at h
  | cons a t ih =>
      by_cases hav : a = v
      · simp [listIndex, hav] at h
        simp [← h]
      · simp only [listIndex, if_neg hav] at h
        cases hm : listIndex t v with
        | none => rw [hm] at h; simp at h
        | some w =>
            rw [hm] at h
            simp at h
            have := ih w hm
            simp
            omega

theorem listIndex_getD (l : List Nat) (v z d : Nat) (h : listIndex l v = some z) :
    l.getD z d = v := by
  induction l generalizing z with
  | nil => simp [listIndex] at h
  | cons a t ih =>
      by_cases hav : a = v
      · simp [listIndex, hav] at h
        simp [← h, hav]
      · simp only [listIndex, if_neg hav] at h
        cases hm : listIndex t v with
        | none => rw [hm] at h; simp at h
        | some w =>
            rw [hm] at h
            simp at h
            rw [← h, List.getD_cons_succ]
            exact ih w hm

theorem getD_mem (l : List Nat) (k d : Nat) (hk : k < l.length) : l.getD k d ∈ l := by
  rw [List.getD_eq_getElem?_getD, List.getElem?_eq_getElem hk]
  exact List.getElem_mem hk

/-! ### Swapping two in-range cells permutes the list -/

theorem cons_getD_set_perm (t : List Nat) (k a : Nat) (hk : k < t.length) :
    List.Perm (t.getD k 0 :: t.set k a) (a :: t) := by
  induction t generalizing k with
  | nil => simp at hk
  | cons b s ih =>
      cases k with
      | zero =>
          simp only [List.getD_cons_zero, List.set_cons_zero]
          exact List.Perm.swap a b s
      | succ m =>
          have hm : m < s.length := by simpa using hk
          simp only [List.getD_cons_succ, List.set_cons_succ]
          exact ((List.Perm.swap b (s.getD m 0) (s.set m a)).trans
            (List.Perm.cons b (ih m hm))).trans (List.Perm.swap a b s)

theorem swapAt_perm (l : List Nat) (i j : Nat) (hi : i < l.length) (hj : j < l.length) :
    List.Perm (swapAt l i j) l := by
  induction l generalizing i j with
  | nil => simp at hi
  | cons a t ih =>
      cases i with
      | zero =>
          cases j with
          | zero => simp [swapAt]
          | succ k =>
              have hk : k < t.length := by simpa using hj
              have e : swapAt (a :: t) 0 (k + 1) = t.getD k 0 :: t.set k a := by
                simp [swapAt]
              rw [e]
              exact cons_getD_set_perm t k a hk
      | succ m =>
          have hm : m < t.length := by simpa using hi
          cases j with
          | zero =>
              have e : swapAt (a :: t) (m + 1) 0 = t.getD m 0 :: t.set m a := by
                simp [swapAt]
              rw [e]
              exact cons_getD_set_perm t m a hm
          | succ k =>
              have hk : k < t.length := by simpa using hj
              have e : swapAt (a :: t) (m + 1) (k + 1) = a :: swapAt t m k := by
                simp [swapAt]
              rw [e]
              exact List.Perm.cons a (ih m k hm hk)

theorem count_zero_range (n : Nat) (hn : 0 < n) : List.count 0 (List.range n) = 1 := by
  induction n with
  | zero => omega
  | succ m ih =>
      rw [List.range_succ, List.count_append]
      rcases Nat.eq_zero_or_pos m with h | h
      · subst h; simp
      · rw [ih h]
        have hm : ¬ (m = 0) := by omega
        simp [List.count_cons, hm]

theorem count_two_of_getD (l : List Nat) (v k1 k2 : Nat) (h12 : k1 < k2) (h2 : k2 < l.length)
    (e1 : l.getD k1 0 = v) (e2 : l.getD k2 0 = v) : 2 ≤ List.count v l := by
  induction l generalizing k1 k2 with
  | nil => simp at h2
  | cons a t ih =>
      cases k1 with
      | zero =>
          cases k2 with
          | zero => omega
          | succ m =>
              have hm : m < t.length := by simpa using h2
              have ha : a = v := by simpa using e1
              have e2t : t.getD m 0 = v := by simpa using e2
              have hv : v ∈ t := e2t ▸ getD_mem t m 0 hm
              have hc : 0 < List.count v t := List.count_pos_iff.mpr hv
              have hcc : List.count v (a :: t) = List.count v t + 1 := by
                simp [List.count_cons, ha]
              omega
      | succ m1 =>
          cases k2 with
          | zero => omega
          | succ m2 =>
              have hr := ih m1 m2 (by omega) (by simpa using h2)
                (by simpa using e1) (by simpa using e2)
              have : List.count v t ≤ List.count v (a :: t) := by
                simp [List.count_cons]
              omega

/-! ### Index bounds for the four moves -/

theorem right_bound (z gs : Nat) (hz : z < gs * gs) (hx : z % gs < gs - 1) :
    z + 1 < gs * gs := by
  have hgs : 0 < gs := by
    rcases Nat.eq_zero_or_pos gs with h | h
    · subst h; simp at hx
    · exact h
  have hdiv : z / gs < gs := (Nat.div_lt_iff_lt_mul hgs).mpr hz
  have e : gs * (z / gs) + z % gs = z := Nat.div_add_mod z gs
  have h1 : z + 1 < gs * (z / gs) + gs := by omega
  have h2 : gs * (z / gs) + gs = gs * (z / gs + 1) := by ring
  have h3 : gs * (z / gs + 1) ≤ gs * gs := Nat.mul_le_mul_left gs hdiv
  omega

theorem down_bound (z gs : Nat) (hgs : 0 < gs)
    (hy : z / gs < gs - 1) : z + gs < gs * gs := by
  have e : gs * (z / gs) + z % gs = z := Nat.div_add_mod z gs
  have hm : z % gs < gs := Nat.mod_lt z hgs
  have h1 : z / gs + 1 ≤ gs - 1 := hy
  have h2 : gs * (z / gs + 1) ≤ gs * (gs - 1) := Nat.mul_le_mul_left gs h1
  have h3 : gs * (z / gs + 1) = gs * (z / gs) + gs := by ring
  have h4 : gs * (gs - 1) + gs = gs * gs := by
    have h5 : gs - 1 + 1 = gs := by omega
    calc gs * (gs - 1) + gs = gs * (gs - 1 + 1) := by ring
      _ = gs * gs := by rw [h5]
  omega

/-! ### Inversion and success lemmas for the constructor and the moves -/

theorem mkNode_valid (heval : HeuristicFn) (p : Option Node) (g sol : List Nat)
    (gs : Nat) (hn s : String) (hs : ValidStrategy s) :
    mkNode heval p g sol gs hn s =
      Except.ok (Node.mk p g gs hn s (levelOf p) (heval g sol gs hn)
        (costTable s (levelOf p) (heval g sol gs hn))) := by
  rcases hs with h | h | h <;> subst h <;> simp [mkNode, costTable]

theorem mkNode_ok_inv (heval : HeuristicFn) (p : Option Node) (g sol : List Nat)
    (gs : Nat) (hn s : String) (n : Node) (h : mkNode heval p g sol gs hn s = Except.ok n) :
    ValidStrategy s ∧
      n = Node.mk p g gs hn s (levelOf p) (heval g sol gs hn)
        (costTable s (levelOf p) (heval g sol gs hn)) := by
  by_cases h1 : s = "a_star"
  · have hs : ValidStrategy s := Or.inl h1
    rw [mkNode_valid heval p g sol gs hn s hs] at h
    exact ⟨hs, (Except.ok.inj h).symm⟩
  by_cases h2 : s = "uniform"
  · have hs : ValidStrategy s := Or.inr (Or.inl h2)
    rw [mkNode_valid heval p g sol gs hn s hs] at h
    exact ⟨hs, (Except.ok.inj h).symm⟩
  by_cases h3 : s = "greedy"
  · have hs : ValidStrategy s := Or.inr (Or.inr h3)
    rw [mkNode_valid heval p g sol gs hn s hs] at h
    exact ⟨hs, (Except.ok.inj h).symm⟩
  · simp [mkNode, h1, h2, h3] at h

theorem mkNode_invalid (heval : HeuristicFn) (p : Option Node) (g sol : List Nat)
    (gs : Nat) (hn s : String) (hs : ¬ ValidStrategy s) :
    mkNode heval p g sol gs hn s = Except.error ("Unsupported search type: " ++ s) := by
  have h1 : ¬ (s = "a_star") := fun h => hs (Or.inl h)
  have h2 : ¬ (s = "uniform") := fun h => hs (Or.inr (Or.inl h))
  have h3 : ¬ (s = "greedy") := fun h => hs (Or.inr (Or.inr h))
  simp [mkNode, h1, h2, h3]

/-- The child node yielded by a successful move: the swapped grid, parent
`self`, the passed goal grid and grid size, and the own heuristic and
strategy strings of the node. -/
def childAt (heval : HeuristicFn) (self : Node) (sol : List Nat) (gs i j : Nat) : Node :=
  Node.mk (some self) (swapAt self.getGrid i j) gs self.getHeuristic self.getSearchType
    (self.getLevel + 1) (heval (swapAt self.getGrid i j) sol gs self.getHeuristic)
    (costTable self.getSearchType (self.getLevel + 1)
      (heval (swapAt self.getGrid i j) sol gs self.getHeuristic))

theorem moveZero_ok (heval : HeuristicFn) (self : Node) (sol : List Nat) (gs i j : Nat)
    (hi : i < self.getGrid.length) (hj : j < self.getGrid.length)
    (hs : ValidStrategy self.getSearchType) :
    moveZero heval self sol gs i j = Except.ok (childAt heval self sol gs i j) := by
  have hsw : pySwap self.getGrid i j = Except.ok (swapAt self.getGrid i j) := by
    unfold pySwap; rw [if_pos ⟨hi, hj⟩]
  unfold moveZero
  rw [hsw]
  show mkNode heval (some self) (swapAt self.getGrid i j) sol gs
      self.getHeuristic self.getSearchType = Except.ok (childAt heval self sol gs i j)
  rw [mkNode_valid _ _ _ _ _ _ _ hs]
  rfl

theorem moveZero_ok_inv (heval : HeuristicFn) (self : Node) (sol : List Nat)
    (gs i j : Nat) (c : Node) (h : moveZero heval self sol gs i j = Except.ok c) :
    i < self.getGrid.length ∧ j < self.getGrid.length ∧
      ValidStrategy self.getSearchType ∧ c = childAt heval self sol gs i j := by
  unfold moveZero pySwap at h
  by_cases hb : i < self.getGrid.length ∧ j < self.getGrid.length
  · rw [if_pos hb] at h
    obtain ⟨hs, hc⟩ := mkNode_ok_inv _ _ _ _ _ _ _ _ h
    refine ⟨hb.1, hb.2, hs, ?_⟩
    rw [hc]; rfl
  · rw [if_neg hb] at h
    simp at h

theorem stepMove_ok_true (heval : HeuristicFn) (self : Node) (sol : List Nat)
    (gs i j : Nat) (cs : List Node) (c : Node)
    (h : moveZero heval self sol gs i j = Except.ok c) :
    stepMove heval self sol gs true i j (Except.ok cs) = Except.ok (cs ++ [c]) := by
  simp [stepMove, h]

theorem stepMove_ok_false (heval : HeuristicFn) (self : Node) (sol : List Nat)
    (gs i j : Nat) (cs : List Node) :
    stepMove heval self sol gs false i j (Except.ok cs) = Except.ok cs := rfl

theorem stepMove_decide (heval : HeuristicFn) (self : Node) (sol : List Nat)
    (gs i j : Nat) (cs : List Node) (P : Prop) [Decidable P]
    (hP : P → moveZero heval self sol gs i j = Except.ok (childAt heval self sol gs i j)) :
    stepMove heval self sol gs (decide P) i j (Except.ok cs) =
      Except.ok (cs ++ (if P then [childAt heval self sol gs i j] else [])) := by
  by_cases h : P
  · rw [if_pos h, decide_eq_true h]
    exact stepMove_ok_true _ _ _ _ _ _ _ _ (hP h)
  · rw [if_neg h, decide_eq_false h, List.append_nil]
    exact stepMove_ok_false _ _ _ _ _ _ _

/-! ### Unfolding equations and characterization of `createChildrenNodes` -/

theorem createChildrenNodes_none (heval : HeuristicFn) (self : Node) (sol : List Nat)
    (gs : Nat) (hz : listIndex self.getGrid 0 = none) :
    createChildrenNodes heval self sol gs =
      Except.error ("ValueError: 0 is not in list") := by
  unfold createChildrenNodes
  rw [hz]

theorem createChildrenNodes_some (heval : HeuristicFn) (self : Node) (sol : List Nat)
    (gs z : Nat) (hz : listIndex self.getGrid 0 = some z) :
    createChildrenNodes heval self sol gs =
      (if gs = 0 then Except.error ("ZeroDivisionError: integer division or modulo by zero")
       else stepMove heval self sol gs
          (decide (z / gs > 0))
          (z / gs * gs + z % gs)
          (z / gs * gs + z % gs - gs)
          (stepMove heval self sol gs
            (decide (z / gs < gs - 1))
            (z / gs * gs + z % gs)
            (z / gs * gs + z % gs + gs)
            (stepMove heval self sol gs
              (decide (z % gs > 0))
              (z / gs * gs + z % gs)
              (z / gs * gs + z % gs - 1)
              (stepMove heval self sol gs
                (decide (z % gs < gs - 1))
                (z / gs * gs + z % gs)
                (z / gs * gs + z % gs + 1)
                (Except.ok []))))) := by
  unfold createChildrenNodes
  rw [hz]

theorem createChildrenNodes_eq (heval : HeuristicFn) (self : Node) (sol : List Nat)
    (gs z : Nat) (hz : listIndex self.getGrid 0 = some z) (hgs : 0 < gs)
    (hlen : self.getGrid.length = gs * gs) (hstrat : ValidStrategy self.getSearchType) :
    createChildrenNodes heval self sol gs = Except.ok
      ((if z % gs < gs - 1 then [childAt heval self sol gs z (z + 1)] else []) ++
       (if z % gs > 0 then [childAt heval self sol gs z (z - 1)] else []) ++
       (if z / gs < gs - 1 then [childAt heval self sol gs z (z + gs)] else []) ++
       (if z / gs > 0 then [childAt heval self sol gs z (z - gs)] else [])) := by
  have hzlen : z < self.getGrid.length := listIndex_lt_length _ _ _ hz
  have hzz : z < gs * gs := by rw [hlen] at hzlen; exact hzlen
  have hdm : z / gs * gs + z % gs = z := by
    rw [Nat.mul_comm]; exact Nat.div_add_mod z gs
  rw [createChildrenNodes_some heval self sol gs z hz]
  rw [if_neg (Nat.pos_iff_ne_zero.mp hgs)]
  rw [hdm]
  rw [stepMove_decide heval self sol gs z (z + 1) [] (z % gs < gs - 1)
    (fun hx => moveZero_ok heval self sol gs z (z + 1) hzlen
      (by rw [hlen]; exact right_bound z gs hzz hx) hstrat)]
  rw [stepMove_decide heval self sol gs z (z - 1) _ (z % gs > 0)
    (fun _ => moveZero_ok heval self sol gs z (z - 1) hzlen
      (Nat.lt_of_le_of_lt (Nat.sub_le z 1) hzlen) hstrat)]
  rw [stepMove_decide heval self sol gs z (z + gs) _ (z / gs < gs - 1)
    (fun hy => moveZero_ok heval self sol gs z (z + gs) hzlen
      (by rw [hlen]; exact down_bound z gs hgs hy) hstrat)]
  rw [stepMove_decide heval self sol gs z (z - gs) _ (z / gs > 0)
    (fun _ => moveZero_ok heval self sol gs z (z - gs) hzlen
      (Nat.lt_of_le_of_lt (Nat.sub_le z gs) hzlen) hstrat)]
  rw [List.nil_append]

theorem stepMove_ok_mem (heval : HeuristicFn) (self : Node) (sol : List Nat)
    (gs : Nat) (b : Bool) (i j : Nat) (acc : Except String (List Node))
    (cs : List Node) (c : Node)
    (h : stepMove heval self sol gs b i j acc = Except.ok cs) (hc : c ∈ cs) :
    (∃ cs0, acc = Except.ok cs0 ∧ c ∈ cs0) ∨
      (b = true ∧ moveZero heval self sol gs i j = Except.ok c) := by
  cases acc with
  | error e =>
      have he : stepMove heval self sol gs b i j (Except.error e) = Except.error e := rfl
      rw [he] at h
      simp at h
  | ok cs0 =>
      cases b with
      | false =>
          have he : stepMove heval self sol gs false i j (Except.ok cs0) = Except.ok cs0 := rfl
          rw [he] at h
          have hcc : cs0 = cs := Except.ok.inj h
          exact Or.inl ⟨cs0, rfl, by rw [hcc]; exact hc⟩
      | true =>
          cases hm : moveZero heval self sol gs i j with
          | error e =>
              have he : stepMove heval self sol gs true i j (Except.ok cs0) =
                  Except.error e := by
                simp [stepMove, hm]
              rw [he] at h
              simp at h
          | ok c1 =>
              rw [stepMove_ok_true heval self sol gs i j cs0 c1 hm] at h
              have hcs : cs0 ++ [c1] = cs := Except.ok.inj h
              rw [← hcs] at hc
              rcases List.mem_append.mp hc with h1 | h1
              · exact Or.inl ⟨cs0, rfl, h1⟩
              · have hcc : c = c1 := by simpa using h1
                exact Or.inr ⟨rfl, by rw [hcc]⟩

theorem mem_expansion (heval : HeuristicFn) (self : Node) (sol : List Nat) (gs : Nat)
    (cs : List Node) (c : Node)
    (hcs : createChildrenNodes heval self sol gs = Except.ok cs) (hc : c ∈ cs) :
    ∃ z, listIndex self.getGrid 0 = some z ∧ 0 < gs ∧
      ((z % gs < gs - 1 ∧ moveZero heval self sol gs z (z + 1) = Except.ok c) ∨
       (z % gs > 0 ∧ moveZero heval self sol gs z (z - 1) = Except.ok c) ∨
       (z / gs < gs - 1 ∧ moveZero heval self sol gs z (z + gs) = Except.ok c) ∨
       (z / gs > 0 ∧ moveZero heval self sol gs z (z - gs) = Except.ok c)) := by
  cases hz : listIndex self.getGrid 0 with
  | none =>
      rw [createChildrenNodes_none heval self sol gs hz] at hcs
      simp at hcs
  | some z =>
      rw [createChildrenNodes_some heval self sol gs z hz] at hcs
      by_cases hgs0 : gs = 0
      · rw [if_pos hgs0] at hcs
        simp at hcs
      · rw [if_neg hgs0] at hcs
        have hgs : 0 < gs := Nat.pos_of_ne_zero hgs0
        have hdm : z / gs * gs + z % gs = z := by
          rw [Nat.mul_comm]; exact Nat.div_add_mod z gs
        rw [hdm] at hcs
        refine ⟨z, rfl, hgs, ?_⟩
        rcases stepMove_ok_mem _ _ _ _ _ _ _ _ _ _ hcs hc with ⟨cs3, h3, hc3⟩ | ⟨hb, hm⟩
        · rcases stepMove_ok_mem _ _ _ _ _ _ _ _ _ _ h3 hc3 with ⟨cs2, h2, hc2⟩ | ⟨hb, hm⟩
          · rcases stepMove_ok_mem _ _ _ _ _ _ _ _ _ _ h2 hc2 with ⟨cs1, h1, hc1⟩ | ⟨hb, hm⟩
            · rcases stepMove_ok_mem _ _ _ _ _ _ _ _ _ _ h1 hc1 with ⟨cs0, h0, hc0⟩ | ⟨hb, hm⟩
              · have e0 : ([] : List Node) = cs0 := Except.ok.inj h0
                rw [← e0] at hc0
                simp at hc0
              · exact Or.inl ⟨of_decide_eq_true hb, hm⟩
            · exact Or.inr (Or.inl ⟨of_decide_eq_true hb, hm⟩)
          · exact Or.inr (Or.inr (Or.inl ⟨of_decide_eq_true hb, hm⟩))
        · exact Or.inr (Or.inr (Or.inr ⟨of_decide_eq_true hb, hm⟩))

/-! ### Properties of a single swapped child grid -/

theorem swap_child_props (self : Node) (z j : Nat)
    (hz : listIndex self.getGrid 0 = some z)
    (hzlt : z < self.getGrid.length) (hj : j < self.getGrid.length) (hne : j ≠ z)
    (g : List Nat) (hg : g = swapAt self.getGrid z j) :
    g.length = self.getGrid.length ∧
    g.getD z 0 = self.getGrid.getD j 0 ∧
    g.getD j 0 = 0 ∧
    (∀ k, k ≠ z → k ≠ j → g.getD k 0 = self.getGrid.getD k 0) ∧
    (List.count 0 self.getGrid = 1 →
      g.getD z 0 ≠ self.getGrid.getD z 0 ∧ g.getD j 0 ≠ self.getGrid.getD j 0) := by
  subst hg
  have hz0 : self.getGrid.getD z 0 = 0 := listIndex_getD _ _ _ _ hz
  have hjne0 : List.count 0 self.getGrid = 1 → self.getGrid.getD j 0 ≠ 0 := by
    intro hcount h0
    rcases Nat.lt_or_ge j z with hlt | hge
    · exact absurd (count_two_of_getD self.getGrid 0 j z hlt hzlt h0 hz0) (by omega)
    · have hlt : z < j := by omega
      exact absurd (count_two_of_getD self.getGrid 0 z j hlt hj hz0 h0) (by omega)
  refine ⟨swapAt_length _ _ _, swapAt_getD_fst _ _ _ _ hzlt hne, ?_, ?_, ?_⟩
  · rw [swapAt_getD_snd _ _ _ _ hj, hz0]
  · intro k hk1 hk2
    exact swapAt_getD_other _ _ _ _ _ (fun h => hk1 h.symm) (fun h => hk2 h.symm)
  · intro hcount
    constructor
    · rw [swapAt_getD_fst _ _ _ _ hzlt hne, hz0]
      exact hjne0 hcount
    · rw [swapAt_getD_snd _ _ _ _ hj, hz0]
      exact fun h => hjne0 hcount h.symm

/-! ### Concrete instances used to witness the theorems -/

/-- The constantly-zero heuristic (a legal instance of the contract). -/
def hZero : HeuristicFn := fun _ _ _ _ => 0

/-- The constantly-four heuristic (a legal instance of the contract). -/
def hFour : HeuristicFn := fun _ _ _ _ => 4

/-- A raw node of level 2, used as a parent in examples. -/
def pW : Node := Node.mk none [1, 0] 2 "m" "uniform" 2 0 2

/-- The node produced by an `a_star` construction with parent `pW` and
constant heuristic 4: level 3, heuristic cost 4, total cost 11. -/
def nW : Node := Node.mk (some pW) [1, 0] 2 "m" "a_star" 3 4 11

/-- A 3x3 root with the empty cell at the corner (index 0). -/
def cornerNode : Node := Node.mk none [0, 1, 2, 3, 4, 5, 6, 7, 8] 3 "m" "uniform" 0 0 0

/-- First child of `cornerNode` (move Right). -/
def cornerChild1 : Node :=
  Node.mk (some cornerNode) [1, 0, 2, 3, 4, 5, 6, 7, 8] 3 "m" "uniform" 1 0 1

/-- Second child of `cornerNode` (move Down). -/
def cornerChild2 : Node :=
  Node.mk (some cornerNode) [3, 1, 2, 0, 4, 5, 6, 7, 8] 3 "m" "uniform" 1 0 1

/-- A 3x3 root with the empty cell at the center (index 4). -/
def centerNode : Node := Node.mk none [1, 2, 3, 4, 0, 5, 6, 7, 8] 3 "m" "uniform" 0 0 0

/-! ### Claim C1: the cost formula follows the strategy table -/

/-- C1: for every node accepted by the constructor, `totalCost` is computed
from (level, heuristicCost) exactly by the strategy table: `a_star` gives
`level + heuristicCost * 2`, `uniform` gives `level`, `greedy` gives
`heuristicCost`. -/
theorem totalCost_follows_strategy_table (heval : HeuristicFn) (p : Option Node)
    (g sol : List Nat) (gs : Nat) (hn s : String) (n : Node)
    (h : mkNode heval p g sol gs hn s = Except.ok n) :
    n.getCost = costTable s n.getLevel n.getHCost ∧
      (s = "a_star" → n.getCost = n.getLevel + n.getHCost * 2) ∧
      (s = "uniform" → n.getCost = n.getLevel) ∧
      (s = "greedy" → n.getCost = n.getHCost) := by
  obtain ⟨hs, hinv⟩ := mkNode_ok_inv _ _ _ _ _ _ _ _ h
  subst hinv
  refine ⟨rfl, ?_, ?_, ?_⟩
  · intro he; subst he; simp [costTable, Node.getCost, Node.getLevel, Node.getHCost]
  · intro he; subst he; simp [costTable, Node.getCost, Node.getLevel, Node.getHCost]
  · intro he; subst he; simp [costTable, Node.getCost, Node.getLevel, Node.getHCost]

/-- Application of C1 at a concrete input: an `a_star` node with level 3 and
heuristic cost 4 has total cost 11. -/
theorem totalCost_follows_strategy_table_app :
    (mkNode hFour (some pW) [1, 0] [0, 1] 2 "m" "a_star" = Except.ok nW) ∧
    nW.getLevel = 3 ∧ nW.getHCost = 4 ∧ nW.getCost = 11 ∧
    (nW.getCost = costTable "a_star" nW.getLevel nW.getHCost ∧
      ("a_star" = "a_star" → nW.getCost = nW.getLevel + nW.getHCost * 2) ∧
      ("a_star" = "uniform" → nW.getCost = nW.getLevel) ∧
      ("a_star" = "greedy" → nW.getCost = nW.getHCost)) :=
  ⟨rfl, rfl, rfl, rfl,
    totalCost_follows_strategy_table hFour (some pW) [1, 0] [0, 1] 2 "m" "a_star" nW rfl⟩

/-! ### Claim C3: unrecognised strategies are rejected at construction -/

/-- C3: construction with a strategy outside the three recognised values
fails with the `ValueError` (`Unsupported search type`), and construction
with any recognised value never produces this error. -/
theorem invalid_strategy_rejected (heval : HeuristicFn) (p : Option Node)
    (g sol : List Nat) (gs : Nat) (hn s : String) :
    (¬ ValidStrategy s →
      mkNode heval p g sol gs hn s = Except.error ("Unsupported search type: " ++ s)) ∧
    (ValidStrategy s → ∃ n, mkNode heval p g sol gs hn s = Except.ok n) := by
  constructor
  · exact mkNode_invalid heval p g sol gs hn s
  · intro hs
    exact ⟨_, mkNode_valid heval p g sol gs hn s hs⟩

/-- Application of C3: strategy "dijkstra" is rejected, "a_star" is accepted. -/
theorem invalid_strategy_rejected_app :
    mkNode hZero none [0] [0] 1 "m" "dijkstra" =
      Except.error ("Unsupported search type: " ++ "dijkstra") ∧
    (∃ n, mkNode hZero none [0] [0] 1 "m" "a_star" = Except.ok n) :=
  ⟨(invalid_strategy_rejected hZero none [0] [0] 1 "m" "dijkstra").1 (by decide),
   (invalid_strategy_rejected hZero none [0] [0] 1 "m" "a_star").2 (by decide)⟩

/-! ### Claim C4: the comparison is a strict order on total cost only -/

/-- C4: `Node.lt` holds exactly when `self.getCost < other.getCost`; it is
transitive and irreflexive, and nodes with equal cost are never "cheaper"
regardless of their grids. -/
theorem lt_strict_cost_order (a b c : Node) :
    (Node.lt a b = true ↔ a.getCost < b.getCost) ∧
    (Node.lt a b = true → Node.lt b c = true → Node.lt a c = true) ∧
    Node.lt a a = false ∧
    (a.getCost = b.getCost → Node.lt a b = false) := by
  unfold Node.lt
  refine ⟨by simp, ?_, by simp, ?_⟩
  · intro h1 h2
    simp at h1 h2 ⊢
    omega
  · intro h
    rw [h]
    simp

/-- Application of C4 at concrete nodes with costs 0 < 1 < 2. -/
theorem lt_strict_cost_order_app :
    Node.lt (Node.mk none [] 0 "" "" 0 0 0) (Node.mk none [] 0 "" "" 0 0 2) = true :=
  (lt_strict_cost_order (Node.mk none [] 0 "" "" 0 0 0) (Node.mk none [] 0 "" "" 0 0 1)
    (Node.mk none [] 0 "" "" 0 0 2)).2.1 rfl rfl

/-! ### Claim C6: level propagation -/

/-- C6: a node built without a parent has level 0, a node built with a parent
has the parent level plus 1, and every expansion child has the level of the
expanded node plus 1. -/
theorem level_propagation (heval : HeuristicFn) :
    (∀ g sol gs hn s n, mkNode heval none g sol gs hn s = Except.ok n → n.getLevel = 0) ∧
    (∀ p g sol gs hn s n, mkNode heval (some p) g sol gs hn s = Except.ok n →
      n.getLevel = p.getLevel + 1) ∧
    (∀ self sol gs cs, createChildrenNodes heval self sol gs = Except.ok cs →
      ∀ c ∈ cs, c.getLevel = self.getLevel + 1) := by
  refine ⟨?_, ?_, ?_⟩
  · intro g sol gs hn s n h
    obtain ⟨_, hinv⟩ := mkNode_ok_inv _ _ _ _ _ _ _ _ h
    rw [hinv]; rfl
  · intro p g sol gs hn s n h
    obtain ⟨_, hinv⟩ := mkNode_ok_inv _ _ _ _ _ _ _ _ h
    rw [hinv]; rfl
  · intro self sol gs cs hcs c hc
    obtain ⟨z, _, _, hcases⟩ := mem_expansion heval self sol gs cs c hcs hc
    rcases hcases with ⟨_, hm⟩ | ⟨_, hm⟩ | ⟨_, hm⟩ | ⟨_, hm⟩ <;>
    · obtain ⟨_, _, _, hcc⟩ := moveZero_ok_inv _ _ _ _ _ _ _ hm
      rw [hcc]; rfl

/-- Application of C6: a child of `cornerNode` has level 1 = 0 + 1. -/
theorem level_propagation_app :
    cornerChild1.getLevel = cornerNode.getLevel + 1 :=
  (level_propagation hZero).2.2 cornerNode [1, 2, 3, 4, 5, 6, 7, 8, 0] 3
    [cornerChild1, cornerChild2] rfl cornerChild1 (List.mem_cons_self _ _)

/-! ### Claim C2: expansion order, guards and boundedness -/

/-- C2: expansion emits at most 4 children, in the exact order Right, Left,
Down, Up, each present exactly under its boundary guard expressed through
`x = zeroIndex mod gridSize` and `y = zeroIndex div gridSize`, and each
grid of each child is the corresponding adjacent swap. -/
theorem expansion_guard_order (heval : HeuristicFn) (self : Node) (sol : List Nat)
    (gs z : Nat) (hz : listIndex self.getGrid 0 = some z) (hgs : 0 < gs)
    (hlen : self.getGrid.length = gs * gs) (hstrat : ValidStrategy self.getSearchType) :
    ∃ cs, createChildrenNodes heval self sol gs = Except.ok cs ∧ cs.length ≤ 4 ∧
      cs.map Node.getGrid =
        (if z % gs < gs - 1 then [swapAt self.getGrid z (z + 1)] else []) ++
        (if z % gs > 0 then [swapAt self.getGrid z (z - 1)] else []) ++
        (if z / gs < gs - 1 then [swapAt self.getGrid z (z + gs)] else []) ++
        (if z / gs > 0 then [swapAt self.getGrid z (z - gs)] else []) := by
  refine ⟨_, createChildrenNodes_eq heval self sol gs z hz hgs hlen hstrat, ?_, ?_⟩
  · simp only [List.length_append]
    split_ifs <;> simp
  · simp only [List.map_append]
    split_ifs <;> simp [childAt, Node.getGrid]

/-- Application of C2 on a 3x3 grid: with the empty cell at corner index 0
exactly two children appear (Right then Down); with the empty cell at center
index 4 exactly four children appear, in order Right, Left, Down, Up. -/
theorem expansion_guard_order_app :
    (∃ cs, createChildrenNodes hZero cornerNode [1, 2, 3, 4, 5, 6, 7, 8, 0] 3 =
        Except.ok cs ∧ cs.length ≤ 4 ∧
      cs.map Node.getGrid = [[1, 0, 2, 3, 4, 5, 6, 7, 8], [3, 1, 2, 0, 4, 5, 6, 7, 8]]) ∧
    (∃ cs, createChildrenNodes hZero centerNode [1, 2, 3, 4, 5, 6, 7, 8, 0] 3 =
        Except.ok cs ∧ cs.length ≤ 4 ∧
      cs.map Node.getGrid =
        [[1, 2, 3, 4, 5, 0, 6, 7, 8], [1, 2, 3, 0, 4, 5, 6, 7, 8],
         [1, 2, 3, 4, 7, 5, 6, 0, 8], [1, 0, 3, 4, 2, 5, 6, 7, 8]]) := by
  constructor
  · obtain ⟨cs, h1, h2, h3⟩ := expansion_guard_order hZero cornerNode
      [1, 2, 3, 4, 5, 6, 7, 8, 0] 3 0 rfl (by omega) rfl (Or.inr (Or.inl rfl))
    exact ⟨cs, h1, h2, by rw [h3]; rfl⟩
  · obtain ⟨cs, h1, h2, h3⟩ := expansion_guard_order hZero centerNode
      [1, 2, 3, 4, 5, 6, 7, 8, 0] 3 4 rfl (by omega) rfl (Or.inr (Or.inl rfl))
    exact ⟨cs, h1, h2, by rw [h3]; rfl⟩

/-! ### Claim C10: expansion is total when the grid is well-formed -/

/-- C10: for a node whose grid holds a 0 and has length `gridSize * gridSize`
with positive `gridSize` (and a recognised strategy, which every constructed
node has), every index the expansion reads or writes is in bounds and the
expansion succeeds. -/
theorem expansion_total_in_bounds (heval : HeuristicFn) (self : Node) (sol : List Nat)
    (gs z : Nat) (hz : listIndex self.getGrid 0 = some z) (hgs : 0 < gs)
    (hlen : self.getGrid.length = gs * gs) (hstrat : ValidStrategy self.getSearchType) :
    ∃ cs, createChildrenNodes heval self sol gs = Except.ok cs :=
  ⟨_, createChildrenNodes_eq heval self sol gs z hz hgs hlen hstrat⟩

/-- Application of C10 at the corner node. -/
theorem expansion_total_in_bounds_app :
    ∃ cs, createChildrenNodes hZero cornerNode [1, 2, 3, 4, 5, 6, 7, 8, 0] 3 =
      Except.ok cs :=
  expansion_total_in_bounds hZero cornerNode [1, 2, 3, 4, 5, 6, 7, 8, 0] 3 0 rfl
    (by omega) rfl (Or.inr (Or.inl rfl))

/-! ### Claim C5: move correctness -/

/-- A node whose grid holds two zeros: its Right child is identical to it,
refuting "differs in exactly two positions" for grids that merely contain
an entry 0. -/
def dupZero : Node := Node.mk none [0, 0, 2, 3] 2 "m" "uniform" 0 0 0

/-- First child of `dupZero` (move Right): the two zeros swap, the grid is
unchanged. -/
def dupZeroChild1 : Node := Node.mk (some dupZero) [0, 0, 2, 3] 2 "m" "uniform" 1 0 1

/-- Second child of `dupZero` (move Down). -/
def dupZeroChild2 : Node := Node.mk (some dupZero) [2, 0, 0, 3] 2 "m" "uniform" 1 0 1

/-- C5 counterexample: `dupZero` satisfies the hypotheses of the claim (its grid
contains an entry 0 and has length gridSize squared), yet expansion emits a
child whose grid is identical to the parent grid, so no child differs from
the parent grid in exactly two positions. -/
theorem move_two_positions_cex :
    (0 : Nat) ∈ dupZero.getGrid ∧ dupZero.getGrid.length = 2 * 2 ∧
    createChildrenNodes hZero dupZero [0, 1, 2, 3] 2 =
      Except.ok [dupZeroChild1, dupZeroChild2] ∧
    dupZeroChild1.getGrid = dupZero.getGrid :=
  ⟨by decide, rfl, rfl, rfl⟩

/-- C5 amended: the grid of each child holds the parent value of the moved-from
adjacent cell at the parent 0-index `z`, holds 0 at the adjacent index `j`,
and agrees with the parent everywhere else; when the parent grid contains
exactly one 0 (in particular for permutation grids), the child consequently
differs from the parent in exactly those two positions. -/
theorem move_correctness_amended (heval : HeuristicFn) (self : Node) (sol : List Nat)
    (gs z : Nat) (cs : List Node)
    (hz : listIndex self.getGrid 0 = some z)
    (_hlen : self.getGrid.length = gs * gs)
    (hcs : createChildrenNodes heval self sol gs = Except.ok cs) :
    ∀ c ∈ cs, ∃ j, j < self.getGrid.length ∧ j ≠ z ∧
      c.getGrid.length = self.getGrid.length ∧
      c.getGrid.getD z 0 = self.getGrid.getD j 0 ∧
      c.getGrid.getD j 0 = 0 ∧
      (∀ k, k ≠ z → k ≠ j → c.getGrid.getD k 0 = self.getGrid.getD k 0) ∧
      (List.count 0 self.getGrid = 1 →
        c.getGrid.getD z 0 ≠ self.getGrid.getD z 0 ∧
        c.getGrid.getD j 0 ≠ self.getGrid.getD j 0) := by
  intro c hc
  obtain ⟨z1, hz1, hgs, hcases⟩ := mem_expansion heval self sol gs cs c hcs hc
  have hz1z : z1 = z := by
    rw [hz] at hz1
    exact (Option.some.inj hz1).symm
  subst hz1z
  rcases hcases with ⟨hg, hm⟩ | ⟨hg, hm⟩ | ⟨hg, hm⟩ | ⟨hg, hm⟩
  · obtain ⟨hi, hj, _, hcc⟩ := moveZero_ok_inv _ _ _ _ _ _ _ hm
    exact ⟨z1 + 1, hj, by omega,
      swap_child_props self z1 (z1 + 1) hz hi hj (by omega) c.getGrid (by rw [hcc]; rfl)⟩
  · obtain ⟨hi, hj, _, hcc⟩ := moveZero_ok_inv _ _ _ _ _ _ _ hm
    have hpos : 0 < z1 := Nat.lt_of_lt_of_le hg (Nat.mod_le z1 gs)
    exact ⟨z1 - 1, hj, by omega,
      swap_child_props self z1 (z1 - 1) hz hi hj (by omega) c.getGrid (by rw [hcc]; rfl)⟩
  · obtain ⟨hi, hj, _, hcc⟩ := moveZero_ok_inv _ _ _ _ _ _ _ hm
    exact ⟨z1 + gs, hj, by omega,
      swap_child_props self z1 (z1 + gs) hz hi hj (by omega) c.getGrid (by rw [hcc]; rfl)⟩
  · obtain ⟨hi, hj, _, hcc⟩ := moveZero_ok_inv _ _ _ _ _ _ _ hm
    have hge : gs ≤ z1 := by
      by_contra hlt
      push_neg at hlt
      rw [Nat.div_eq_of_lt hlt] at hg
      exact absurd hg (by omega)
    exact ⟨z1 - gs, hj, by omega,
      swap_child_props self z1 (z1 - gs) hz hi hj (by omega) c.getGrid (by rw [hcc]; rfl)⟩

/-- Application of the amended C5 to the Right child of `cornerNode`. -/
theorem move_correctness_amended_app :
    ∃ j, j < cornerNode.getGrid.length ∧ j ≠ 0 ∧
      cornerChild1.getGrid.length = cornerNode.getGrid.length ∧
      cornerChild1.getGrid.getD 0 0 = cornerNode.getGrid.getD j 0 ∧
      cornerChild1.getGrid.getD j 0 = 0 ∧
      (∀ k, k ≠ 0 → k ≠ j → cornerChild1.getGrid.getD k 0 = cornerNode.getGrid.getD k 0) ∧
      (List.count 0 cornerNode.getGrid = 1 →
        cornerChild1.getGrid.getD 0 0 ≠ cornerNode.getGrid.getD 0 0 ∧
        cornerChild1.getGrid.getD j 0 ≠ cornerNode.getGrid.getD j 0) :=
  move_correctness_amended hZero cornerNode [1, 2, 3, 4, 5, 6, 7, 8, 0] 3 0
    [cornerChild1, cornerChild2] rfl rfl rfl cornerChild1 (List.mem_cons_self _ _)

/-! ### Claim C7: the one-move end-to-end scenario -/

/-- C7: for goal grid [1,2,3,4,5,6,7,8,0] and start grid [1,2,3,4,5,0,7,8,6],
expanding the root built with the `uniform` strategy (any heuristic) yields a
child whose grid equals the goal grid, with total cost 1. -/
theorem one_move_scenario (heval : HeuristicFn) (hn : String) (root : Node)
    (hroot : mkNode heval none [1, 2, 3, 4, 5, 0, 7, 8, 6] [1, 2, 3, 4, 5, 6, 7, 8, 0] 3
      hn "uniform" = Except.ok root) :
    ∃ cs, createChildrenNodes heval root [1, 2, 3, 4, 5, 6, 7, 8, 0] 3 = Except.ok cs ∧
      ∃ c ∈ cs, c.getGrid = [1, 2, 3, 4, 5, 6, 7, 8, 0] ∧ c.getCost = 1 := by
  obtain ⟨_, hinv⟩ := mkNode_ok_inv _ _ _ _ _ _ _ _ hroot
  have hg : root.getGrid = [1, 2, 3, 4, 5, 0, 7, 8, 6] := by rw [hinv]; rfl
  have hst : root.getSearchType = "uniform" := by rw [hinv]; rfl
  have hlev : root.getLevel = 0 := by rw [hinv]; rfl
  refine ⟨_, createChildrenNodes_eq heval root [1, 2, 3, 4, 5, 6, 7, 8, 0] 3 5
    (by rw [hg]; rfl) (by omega) (by rw [hg]; rfl)
    (by rw [hst]; exact Or.inr (Or.inl rfl)), ?_⟩
  refine ⟨childAt heval root [1, 2, 3, 4, 5, 6, 7, 8, 0] 3 5 (5 + 3), ?_, ?_, ?_⟩
  · show childAt heval root [1, 2, 3, 4, 5, 6, 7, 8, 0] 3 5 (5 + 3) ∈
      ([] ++ [childAt heval root [1, 2, 3, 4, 5, 6, 7, 8, 0] 3 5 (5 - 1)]) ++
      [childAt heval root [1, 2, 3, 4, 5, 6, 7, 8, 0] 3 5 (5 + 3)] ++
      [childAt heval root [1, 2, 3, 4, 5, 6, 7, 8, 0] 3 5 (5 - 3)]
    simp
  · show swapAt root.getGrid 5 (5 + 3) = [1, 2, 3, 4, 5, 6, 7, 8, 0]
    rw [hg]; rfl
  · show costTable root.getSearchType (root.getLevel + 1)
      (heval (swapAt root.getGrid 5 (5 + 3)) [1, 2, 3, 4, 5, 6, 7, 8, 0] 3
        root.getHeuristic) = 1
    rw [hst, hlev]
    simp [costTable]

/-- Application of C7 with the constant-zero heuristic. -/
theorem one_move_scenario_app :
    ∃ cs, createChildrenNodes hZero
        (Node.mk none [1, 2, 3, 4, 5, 0, 7, 8, 6] 3 "manhattan" "uniform" 0 0 0)
        [1, 2, 3, 4, 5, 6, 7, 8, 0] 3 = Except.ok cs ∧
      ∃ c ∈ cs, c.getGrid = [1, 2, 3, 4, 5, 6, 7, 8, 0] ∧ c.getCost = 1 :=
  one_move_scenario hZero "manhattan"
    (Node.mk none [1, 2, 3, 4, 5, 0, 7, 8, 6] 3 "manhattan" "uniform" 0 0 0) rfl

/-! ### Claim C8: the fields every expansion child is constructed with -/

/-- A gridSize-2 node, expanded below with gridSize argument 3. -/
def nodeG2 : Node := Node.mk none [0, 1, 2, 3] 2 "m" "uniform" 0 0 0

/-- First child of `nodeG2` when expanded with gridSize argument 3. -/
def g2Child1 : Node := Node.mk (some nodeG2) [1, 0, 2, 3] 3 "m" "uniform" 1 0 1

/-- Second child of `nodeG2` when expanded with gridSize argument 3. -/
def g2Child2 : Node := Node.mk (some nodeG2) [3, 1, 2, 0] 3 "m" "uniform" 1 0 1

/-- C8 counterexample: expanding a node whose own gridSize is 2 with the
gridSize argument 3 yields children whose gridSize is 3 — not "the same
gridSize as the expanded node itself" — so the claim fails for mismatched
goalGrid/gridSize argument pairs. -/
theorem child_fields_cex :
    nodeG2.getGridSize = 2 ∧
    createChildrenNodes hZero nodeG2 [0, 1, 2, 3] 3 = Except.ok [g2Child1, g2Child2] ∧
    g2Child1.getGridSize = 3 ∧ ¬ (g2Child1.getGridSize = nodeG2.getGridSize) :=
  ⟨rfl, rfl, rfl, by decide⟩

/-- C8 amended: every child is a new node constructed with `parent = self`,
the swapped grid, the `goalGrid` and `gridSize` arguments the expansion was
invoked with, and the own heuristicName and searchStrategy of the expanded node;
its gridSize equals the gridSize of the expanded node exactly when the expansion is
invoked with that gridSize. -/
theorem child_construction_amended (heval : HeuristicFn) (self : Node)
    (sol : List Nat) (gs : Nat) (cs : List Node)
    (hcs : createChildrenNodes heval self sol gs = Except.ok cs) :
    ∀ c ∈ cs, c.getParentNode = some self ∧ c.getHeuristic = self.getHeuristic ∧
      c.getSearchType = self.getSearchType ∧ c.getGridSize = gs ∧
      mkNode heval (some self) c.getGrid sol gs self.getHeuristic self.getSearchType =
        Except.ok c := by
  intro c hc
  obtain ⟨z, _, _, hcases⟩ := mem_expansion heval self sol gs cs c hcs hc
  rcases hcases with ⟨_, hm⟩ | ⟨_, hm⟩ | ⟨_, hm⟩ | ⟨_, hm⟩ <;>
  · obtain ⟨hi, hj, hs, hcc⟩ := moveZero_ok_inv _ _ _ _ _ _ _ hm
    subst hcc
    refine ⟨rfl, rfl, rfl, rfl, ?_⟩
    rw [mkNode_valid _ _ _ _ _ _ _ hs]
    rfl

/-- Application of the amended C8 to the Right child of `cornerNode`. -/
theorem child_construction_amended_app :
    cornerChild1.getParentNode = some cornerNode ∧
    cornerChild1.getHeuristic = cornerNode.getHeuristic ∧
    cornerChild1.getSearchType = cornerNode.getSearchType ∧
    cornerChild1.getGridSize = 3 ∧
    mkNode hZero (some cornerNode) cornerChild1.getGrid [1, 2, 3, 4, 5, 6, 7, 8, 0] 3
      cornerNode.getHeuristic cornerNode.getSearchType = Except.ok cornerChild1 :=
  child_construction_amended hZero cornerNode [1, 2, 3, 4, 5, 6, 7, 8, 0] 3
    [cornerChild1, cornerChild2] rfl cornerChild1 (List.mem_cons_self _ _)

/-! ### Claim C9: expansion preserves the permutation invariant -/

/-- C9: when the grid of a node is a permutation of `0 .. gridSize^2 - 1`, every
expansion child grid is again such a permutation, containing exactly one 0. -/
theorem expansion_preserves_permutation (heval : HeuristicFn) (self : Node)
    (sol : List Nat) (gs : Nat) (cs : List Node)
    (hperm : List.Perm self.getGrid (List.range (gs * gs)))
    (hcs : createChildrenNodes heval self sol gs = Except.ok cs) :
    ∀ c ∈ cs, List.Perm c.getGrid (List.range (gs * gs)) ∧
      List.count 0 c.getGrid = 1 := by
  intro c hc
  obtain ⟨z, hz, hgs, hcases⟩ := mem_expansion heval self sol gs cs c hcs hc
  have key : ∀ j, moveZero heval self sol gs z j = Except.ok c →
      List.Perm c.getGrid (List.range (gs * gs)) ∧ List.count 0 c.getGrid = 1 := by
    intro j hm
    obtain ⟨hi, hj, _, hcc⟩ := moveZero_ok_inv _ _ _ _ _ _ _ hm
    have hgrid : c.getGrid = swapAt self.getGrid z j := by rw [hcc]; rfl
    have hp : List.Perm c.getGrid self.getGrid := by
      rw [hgrid]
      exact swapAt_perm _ _ _ hi hj
    have hp2 := hp.trans hperm
    refine ⟨hp2, ?_⟩
    rw [← count_zero_range (gs * gs) (Nat.mul_pos hgs hgs)]
    exact hp2.count_eq 0
  rcases hcases with ⟨_, hm⟩ | ⟨_, hm⟩ | ⟨_, hm⟩ | ⟨_, hm⟩
  exacts [key _ hm, key _ hm, key _ hm, key _ hm]

/-- Application of C9 to the Right child of `cornerNode`. -/
theorem expansion_preserves_permutation_app :
    List.Perm cornerChild1.getGrid (List.range (3 * 3)) ∧
    List.count 0 cornerChild1.getGrid = 1 :=
  expansion_preserves_permutation hZero cornerNode [1, 2, 3, 4, 5, 6, 7, 8, 0] 3
    [cornerChild1, cornerChild2] (by decide) rfl cornerChild1 (List.mem_cons_self _ _)
